import Mathlib

/-!
Verification of the docinfer metadata reconciliation pipeline.

Python strings are modelled as `List Char` (`Str`), with helper functions
mirroring the Python string operations used by the sources
(`src/src/services/ai_analyzer.py`, `src/docinfer/services/pdf_extractor.py`).
Character-level operations (`lower`, `upper`, `title`, `isdigit`) are modelled
at the ASCII level, which covers every character class the code's invariants
and claims are about.
-/

abbrev Str := List Char

/-- ASCII model of Python `str.lower` on a single character. -/
def pyLowerChar (c : Char) : Char :=
  if 65 ≤ c.toNat ∧ c.toNat ≤ 90 then Char.ofNat (c.toNat + 32) else c

/-- ASCII model of Python `str.upper` on a single character. -/
def pyUpperChar (c : Char) : Char :=
  if 97 ≤ c.toNat ∧ c.toNat ≤ 122 then Char.ofNat (c.toNat - 32) else c

/-- ASCII letter test (Python's `cased` notion restricted to ASCII). -/
def isAsciiAlpha (c : Char) : Bool :=
  (65 ≤ c.toNat && c.toNat ≤ 90) || (97 ≤ c.toNat && c.toNat ≤ 122)

/-- Python `str.lower`. -/
def pyLower (s : Str) : Str := s.map pyLowerChar

/-- Worker for `pyTitle`: the Boolean records whether the previous character
was a letter (Python capitalizes a letter exactly when the previous character
is not cased). -/
def pyTitleGo : Bool → Str → Str
  | _, [] => []
  | prevAlpha, c :: cs =>
      if isAsciiAlpha c then
        (if prevAlpha then pyLowerChar c else pyUpperChar c) :: pyTitleGo true cs
      else
        c :: pyTitleGo false cs

/-- Python `str.title`. -/
def pyTitle (s : Str) : Str := pyTitleGo false s

/-- Python `str.capitalize`: first character uppercased, the rest lowercased. -/
def pyCapitalize (s : Str) : Str :=
  match s with
  | [] => []
  | c :: cs => pyUpperChar c :: pyLower cs

/-- Boolean "is `p` a leading segment of `s`" (Python `str.startswith`). -/
def strHasPre : Str → Str → Bool
  | [], _ => true
  | _ :: _, [] => false
  | a :: as, b :: bs => a == b && strHasPre as bs

/-- Python `str.endswith`. -/
def endsWithStr (pat s : Str) : Bool := strHasPre pat.reverse s.reverse

/-- Python's substring test `pat in s`: `pat` occurs contiguously in `s`
(the empty pattern occurs in every string). -/
def pyInStr (pat : Str) : Str → Bool
  | [] => pat.isEmpty
  | c :: cs => strHasPre pat (c :: cs) || pyInStr pat cs

/-- Python `str.split(sep)` for a one-character separator: always returns a
non-empty list; empty pieces are kept. -/
def pySplitChar (sep : Char) : Str → List Str
  | [] => [[]]
  | c :: cs =>
      if c = sep then [] :: pySplitChar sep cs
      else
        match pySplitChar sep cs with
        | [] => [[c]]
        | p :: ps => (c :: p) :: ps

/-- Fuel-driven worker for Python `str.replace(pat, rep)`: replaces
non-overlapping occurrences left to right.  Structural recursion on the fuel
keeps the definition kernel-computable; `pyReplaceAll` supplies fuel equal to
the string length, which is always sufficient (each step consumes at least one
input character). -/
def pyReplaceAllFuel (pat rep : Str) : Nat → Str → Str
  | 0, s => s
  | fuel + 1, s =>
      if pat ≠ [] ∧ strHasPre pat s then
        rep ++ pyReplaceAllFuel pat rep fuel (s.drop pat.length)
      else
        match s with
        | [] => []
        | c :: cs => c :: pyReplaceAllFuel pat rep fuel cs

/-- Python `str.replace(pat, rep)` (for non-empty `pat`, the only use here). -/
def pyReplaceAll (pat rep s : Str) : Str := pyReplaceAllFuel pat rep s.length s

/-- Python whitespace (the default `str.strip` character class). -/
def pyIsSpace (c : Char) : Bool :=
  c == ' ' || c == '\t' || c == '\n' || c == '\r' || c == '\x0b' || c == '\x0c'

/-- Python `str.strip()` with the default whitespace class. -/
def pyStrip (s : Str) : Str :=
  ((s.dropWhile pyIsSpace).reverse.dropWhile pyIsSpace).reverse

/-- Python `str.rstrip(c)` for a single strip character. -/
def pyRstrip (c : Char) (s : Str) : Str :=
  (s.reverse.dropWhile (fun x => x == c)).reverse

/-- Python `str.isdigit` restricted to ASCII digits: non-empty and all digits. -/
def pyIsDigit (s : Str) : Bool :=
  !s.isEmpty && s.all (fun c => ('0' ≤ c) && (c ≤ '9'))

/-- Python `s.split(sep)[-1]`: the segment after the last separator. -/
def lastSplitPart (sep : Char) (s : Str) : Str :=
  (pySplitChar sep s).getLastD []

/-!
Data model.  Modelled from the spec: the pydantic module `models/metadata.py`
is imported by the sources but absent from the repository snapshot; the record
shapes below follow spec section 3 (DATA MODEL) and the constructor calls in
`ai_analyzer.py` / `pdf_extractor.py`.  Optional string fields use
`Option Str`; date fields are kept as opaque optional strings since no claim
inspects their contents.
-/

/-- Modelled from the spec: `EmbeddedMetadata` record
(`title, author, subject, creator, producer: optional string`;
`creation_date, modification_date: optional timestamp`). -/
structure EmbeddedMetadata where
  title : Option Str
  author : Option Str
  subject : Option Str
  creator : Option Str
  producer : Option Str
  creation_date : Option Str
  modification_date : Option Str
deriving DecidableEq, Repr

/-- Modelled from the spec: `AIMetadata` record (`summary`, `keywords`,
`category`, `suggested_filename`). -/
structure AIMetadata where
  summary : Str
  keywords : List Str
  category : Str
  suggested_filename : Str
deriving DecidableEq, Repr

/-- `ExtractionConfig` from `src/src/models/config.py`.  `temperature` is a
float in the source; it is only forwarded to the externalized model backend,
so it is carried here as a rational. -/
structure ExtractionConfig where
  max_pages : Nat := 10
  model_name : Str := "gemma3:4b".data
  skip_ai : Bool := false
  temperature : Rat := 0
  timeout_seconds : Nat := 120
deriving DecidableEq, Repr

/-- Modelled from the spec: per-file `MetadataResult`
(spec section 3, `FileResult`). -/
structure MetadataResult where
  file_path : Str
  file_name : Str
  page_count : Nat
  pages_analyzed : Nat
  embedded : EmbeddedMetadata
  ai_generated : Option AIMetadata
  warnings : List Str
deriving DecidableEq, Repr

/-- Modelled from the spec: `BatchResult` (spec section 3). -/
structure BatchResult where
  directory : Str
  total_files : Nat
  successful : Nat
  failed : Nat
  results : List MetadataResult
  errors : List (Str × Str)
deriving DecidableEq, Repr

/-!
Embedding of `src/src/services/ai_analyzer.py`.
-/

/-- `is_ollama_running` (ai_analyzer.py:11-25).  The `subprocess.run` of
`ollama list` is external: it is abstracted as its outcome, either a raised
exception (`FileNotFoundError` / `TimeoutExpired`, the `.error` case) or a
completed process return code. -/
def is_ollama_running (run : Except Unit Int) : Bool :=
  match run with
  | .ok returncode => returncode == 0
  | .error _ => false

/-- `is_model_available` (ai_analyzer.py:28-52).  The subprocess outcome is a
return code together with captured stdout; `base_model = model_name.split(":")[0]`
and the check is Python's substring test `base_model in result.stdout`. -/
def is_model_available (run : Except Unit (Int × Str)) (model_name : Str) : Bool :=
  match run with
  | .ok (returncode, stdout) =>
      if returncode != 0 then false
      else
        let base_model := (pySplitChar ':' model_name).headD []
        pyInStr base_model stdout
  | .error _ => false

/-- `is_ollama_available` (ai_analyzer.py:55-64): both probes must succeed.
The two `ollama list` invocations are independent subprocess calls, hence two
oracle arguments. -/
def is_ollama_available (run₁ : Except Unit Int) (run₂ : Except Unit (Int × Str))
    (model_name : Str) : Bool :=
  is_ollama_running run₁ && is_model_available run₂ model_name

/-- Keyword normalization from `analyze_content` (ai_analyzer.py:104-109):
prefix `#` to every keyword lacking it, then lowercase every keyword. -/
def ensureHash (kw : Str) : Str :=
  if strHasPre "#".data kw then kw else '#' :: kw

/-- The two list comprehensions of ai_analyzer.py:105-109 in order. -/
def normalizeKeywords (kws : List Str) : List Str :=
  (kws.map ensureHash).map pyLower

/-- The allowed filename character set of `_clean_filename`
(ai_analyzer.py:153). -/
def validChars : Str := "abcdefghijklmnopqrstuvwxyz0123456789-.[]()".data

/-- The `while "--" in filename` loop of `_clean_filename`
(ai_analyzer.py:149-150), run with explicit fuel; each iteration strictly
shortens the string, so fuel equal to the initial length always suffices. -/
def collapseLoop : Nat → Str → Str
  | 0, s => s
  | fuel + 1, s =>
      if pyInStr "--".data s then collapseLoop fuel (pyReplaceAll "--".data "-".data s)
      else s

/-- `_clean_filename` (ai_analyzer.py:130-160). -/
def clean_filename (filename : Str) : Str :=
  let f1 := lastSplitPart '\\' (lastSplitPart '/' filename)
  let f2 := pyReplaceAll "_".data "-".data (pyReplaceAll " ".data "-".data f1)
  let f3 := pyLower f2
  let f4 := collapseLoop f3.length f3
  let f5 := f4.filter (fun c => validChars.contains c)
  if endsWithStr ".pdf".data f5 then f5 else pyRstrip '.' f5 ++ ".pdf".data

/-- `SYSTEM_PROMPT` and `USER_PROMPT_TEMPLATE` live in `prompts/metadata.py`;
their contents are opaque data to every claim, and the user prompt is
`USER_PROMPT_TEMPLATE.format(text=text)`, i.e. a fixed front part, the text,
and a fixed back part.  Messages are (role, content) pairs. -/
def buildMessages (text : Str) : List (Str × Str) :=
  [("system".data, "SYSTEM_PROMPT".data),
   ("human".data, "USER_PROMPT_TEMPLATE_FRONT".data ++ text ++ "USER_PROMPT_TEMPLATE_BACK".data)]

/-- `analyze_content` (ai_analyzer.py:67-127).  The LangChain/Ollama call is
external; `invoke` abstracts the whole `ChatOllama` + `with_structured_output`
+ `invoke` chain: `.error e` is any raised exception (backend error, timeout,
failed import), `.ok none` is a completed call whose result is not an
`AIMetadata` instance, `.ok (some r)` a conforming structured result.  The
second component of the returned pair is the list of diagnostics printed to
stderr (the `print(f"AI analysis error: {e}", ...)` of the except branch). -/
def analyze_content (invoke : ExtractionConfig → List (Str × Str) → Except Str (Option AIMetadata))
    (text : Str) (config : ExtractionConfig) : Option AIMetadata × List Str :=
  let max_chars := 8000
  let text' := if max_chars < text.length
    then text.take max_chars ++ "\n\n[Text truncated...]".data else text
  let messages := buildMessages text'
  match invoke config messages with
  | .ok (some result) =>
      let result := { result with keywords := normalizeKeywords result.keywords }
      let fn := if endsWithStr ".pdf".data result.suggested_filename
        then result.suggested_filename else result.suggested_filename ++ ".pdf".data
      let result := { result with suggested_filename := clean_filename fn }
      (some result, [])
  | .ok none => (none, [])
  | .error e => (none, ["AI analysis error: ".data ++ e])

/-- Python's truthiness-based `a or b` on an optional string paired with an
optional string: `None` and the empty string are falsy. -/
def pyOrOpt (a b : Option Str) : Option Str :=
  match a with
  | some s => if s = [] then b else some s
  | none => b

/-- The filename-parsing core of `merge_ai_into_embedded`
(ai_analyzer.py:178-201), as a function of the split parts.  Python negative
indices and slices are rendered through `reverse`: `parts[-1]` is
`parts.reverse.headD []`, `parts[-2]` is `(parts.reverse.drop 1).headD []`,
and `parts[:-k]` is `(parts.reverse.drop k).reverse`. -/
def parsePartsCode (parts : List Str) : Option Str × Option Str :=
  let last := parts.reverse.headD []
  let extracted_author : Option Str :=
    if 2 ≤ parts.length then
      if pyIsDigit last ∧ last.length = 4 then
        (if 3 ≤ parts.length then some ((parts.reverse.drop 1).headD []) else none)
      else some last
    else none
  let extracted_title : Option Str :=
    if 2 ≤ parts.length then
      match extracted_author with
      | some a =>
          if a ≠ [] ∧ 2 < parts.length then
            let title_parts := if pyIsDigit last
              then (parts.reverse.drop 2).reverse else (parts.reverse.drop 1).reverse
            some (pyTitle (List.intercalate " ".data title_parts))
          else none
      | none => none
    else none
  (extracted_author, extracted_title)

/-- Author/title extraction from `suggested_filename` in
`merge_ai_into_embedded` (ai_analyzer.py:180-201): note the source's
`filename.replace(".pdf", "")` removes every occurrence of `".pdf"`, then
splits on `-`.  Returns `(extracted_author, extracted_title)`. -/
def mergeParse (suggested_filename : Str) : Option Str × Option Str :=
  parsePartsCode (pySplitChar '-' (pyReplaceAll ".pdf".data [] suggested_filename))

/-- `merge_ai_into_embedded` (ai_analyzer.py:163-212).  The field updates use
Python `or`, so an empty-string field counts as missing. -/
def merge_ai_into_embedded (embedded : EmbeddedMetadata) (ai_metadata : AIMetadata) :
    EmbeddedMetadata :=
  let parsed := mergeParse ai_metadata.suggested_filename
  { title := pyOrOpt embedded.title parsed.2
    author := pyOrOpt embedded.author parsed.1
    subject := pyOrOpt embedded.subject (some ai_metadata.category)
    creator := embedded.creator
    producer := embedded.producer
    creation_date := embedded.creation_date
    modification_date := embedded.modification_date }

/-!
Embedding of `src/docinfer/services/pdf_extractor.py`.
-/

/-- Abstraction of the pypdf metadata object inside `extract_embedded_metadata`.
`hasattrF` is Python `hasattr`; `getattrF` is attribute access, which may raise
(`.error`) — pypdf's structured accessors raise on malformed entries; the
attribute's value is carried already stringified, with Python truthiness
rendered as "non-empty".  `containsF` is `variant in metadata` (a custom
`__contains__` may raise) and `getitemF` is `metadata[variant]`. -/
structure MetaObj where
  hasattrF : Str → Bool
  getattrF : Str → Except Str Str
  containsF : Str → Except Str Bool
  getitemF : Str → Except Str Str

/-- The key variants tried by the dict-access loop of `get_metadata_field`
(pdf_extractor.py:57): `/key`, `/Key.capitalize()`, `key`. -/
def keyVariants (key : Str) : List Str :=
  ['/' :: key, '/' :: pyCapitalize key, key]

/-- The `for variant in [...]` loop body of `get_metadata_field`
(pdf_extractor.py:57-61), inside the surrounding `try`: a raising
`__contains__` or `__getitem__` aborts with that exception; a falsy value
falls through to the next variant. -/
def tryVariants (m : MetaObj) : List Str → Except Str (Option Str)
  | [] => .ok none
  | v :: vs => do
      let present ← m.containsF v
      if present then
        let value ← m.getitemF v
        if value ≠ [] then return some (pyStrip value)
        else tryVariants m vs
      else tryVariants m vs

/-- The body of `get_metadata_field` (pdf_extractor.py:48-62) without its
`except Exception: return None` wrapper: attribute access first (a truthy
value returns `str(value).strip()`; a falsy value or a missing attribute falls
through to the dict-variant loop), propagating any raised exception. -/
def getFieldBody (m : MetaObj) (key : Str) : Except Str (Option Str) := do
  if m.hasattrF key then
    let value ← m.getattrF key
    if value ≠ [] then return some (pyStrip value)
    else tryVariants m (keyVariants key)
  else tryVariants m (keyVariants key)

/-- `get_metadata_field` (pdf_extractor.py:48-64): the body under the
catch-all `except Exception: return None`. -/
def get_metadata_field (m : MetaObj) (key : Str) : Option Str :=
  match getFieldBody m key with
  | .ok r => r
  | .error _ => none

/-- Abstraction of a pypdf `PdfReader` document for `extract_text`:
the encryption flag and, per page, the result of `page.extract_text()`
(`none` models an extractor returning `None`, turned into `""` by the
source's `or ""`). -/
structure PdfDocument where
  is_encrypted : Bool
  pages : List (Option Str)
deriving DecidableEq, Repr

/-- The `for i in range(pages_to_read)` loop of `extract_text`
(pdf_extractor.py:117-121), walking the first `n` pages in order and keeping
each page text that is truthy after `strip()`. -/
def pageTexts (pages : List (Option Str)) : Nat → List Str
  | 0 => []
  | n + 1 =>
      match pages with
      | [] => []
      | p :: ps =>
          let page_text := p.getD []
          if pyStrip page_text ≠ [] then page_text :: pageTexts ps n
          else pageTexts ps n

/-- `extract_text` (pdf_extractor.py:99-123). -/
def extract_text (doc : PdfDocument) (max_pages : Nat := 10) : Str × Nat :=
  if doc.is_encrypted then ([], 0)
  else
    let pages_to_read := min doc.pages.length max_pages
    let text_parts := pageTexts doc.pages pages_to_read
    (List.intercalate "\n\n".data text_parts, pages_to_read)

/-- The per-file `try` body of `process_directory`
(pdf_extractor.py:179-214).  The two raising steps are the external PDF reads:
`extractEmb` abstracts `extract_embedded_metadata(pdf_file)` and `extractTxt`
abstracts `extract_text(pdf_file, max_pages)`; `analyze_content` itself never
raises and is passed through via its `invoke` oracle. -/
def processFile
    (extractEmb : Str → Except Str (EmbeddedMetadata × Nat × List Str))
    (extractTxt : Str → Nat → Except Str (Str × Nat))
    (invoke : ExtractionConfig → List (Str × Str) → Except Str (Option AIMetadata))
    (extraction_config : ExtractionConfig) (ai_available : Bool)
    (pdf_file : Str) : Except Str MetadataResult := do
  let (embedded, page_count, warnings) ← extractEmb pdf_file
  let tp ← if !extraction_config.skip_ai && ai_available
    then extractTxt pdf_file extraction_config.max_pages
    else pure ([], 0)
  let (text_content, pages_analyzed) := tp
  let warnings := if !extraction_config.skip_ai && ai_available && (pyStrip text_content).isEmpty
    then warnings ++ ["No extractable text found".data] else warnings
  let ai_metadata := if ai_available && !(pyStrip text_content).isEmpty
    then (analyze_content invoke text_content extraction_config).1
    else none
  let result : MetadataResult :=
    { file_path := pdf_file
      file_name := lastSplitPart '/' pdf_file
      page_count := page_count
      pages_analyzed := pages_analyzed
      embedded := embedded
      ai_generated := ai_metadata
      warnings := warnings }
  let result := match ai_metadata with
    | some am => { result with embedded := merge_ai_into_embedded result.embedded am }
    | none => result
  return result

/-- One step of the `for pdf_file in pdf_files` loop of `process_directory`
(pdf_extractor.py:178-219): a success is appended to `results`, a caught
exception is appended to `errors` as a `(file, error)` pair. -/
def batchStep
    (extractEmb : Str → Except Str (EmbeddedMetadata × Nat × List Str))
    (extractTxt : Str → Nat → Except Str (Str × Nat))
    (invoke : ExtractionConfig → List (Str × Str) → Except Str (Option AIMetadata))
    (extraction_config : ExtractionConfig) (ai_available : Bool)
    (acc : List MetadataResult × List (Str × Str)) (pdf_file : Str) :
    List MetadataResult × List (Str × Str) :=
  match processFile extractEmb extractTxt invoke extraction_config ai_available pdf_file with
  | .ok r => (acc.1 ++ [r], acc.2)
  | .error e => (acc.1, acc.2 ++ [(pdf_file, e)])

/-- `process_directory` (pdf_extractor.py:139-228).  AI availability is probed
once per batch (pdf_extractor.py:170-173); the progress bar is presentation
only.  `run₁`/`run₂` are the two `ollama list` subprocess outcomes consumed by
`is_ollama_available`. -/
def process_directory
    (extractEmb : Str → Except Str (EmbeddedMetadata × Nat × List Str))
    (extractTxt : Str → Nat → Except Str (Str × Nat))
    (invoke : ExtractionConfig → List (Str × Str) → Except Str (Option AIMetadata))
    (run₁ : Except Unit Int) (run₂ : Except Unit (Int × Str))
    (directory : Str) (pdf_files : List Str)
    (extraction_config : ExtractionConfig) : BatchResult :=
  let ai_available :=
    if !extraction_config.skip_ai
    then is_ollama_available run₁ run₂ extraction_config.model_name
    else false
  let acc := pdf_files.foldl
    (batchStep extractEmb extractTxt invoke extraction_config ai_available) ([], [])
  { directory := directory
    total_files := pdf_files.length
    successful := acc.1.length
    failed := acc.2.length
    results := acc.1
    errors := acc.2 }

/-!
Reference definitions written from the spec's words, for the refinement
claims.  These deliberately follow the specification text, not the source,
and are compared with the source embeddings in the claim theorems.
-/

/-- Spec wording (C5): "strip the `.pdf` suffix" — only a trailing suffix is
removed. -/
def stripPdfSuffix (s : Str) : Str :=
  if endsWithStr ".pdf".data s then s.take (s.length - 4) else s

/-- Reference filename parsing per the claim C5 / spec section 4.3 wording:
strip the `.pdf` suffix, split on `-`; if the last part is exactly 4 digits it
is the year and the second-to-last part (when at least 3 parts exist) is the
author, otherwise the last part is the author; the title is the remaining
leading parts (excluding the 1 or 2 trailing parts consumed) joined by spaces
and title-cased; with fewer than 2 parts nothing is extracted.  Returns
`(author, title)`. -/
def specRefParse (suggested_filename : Str) : Option Str × Option Str :=
  let parts := pySplitChar '-' (stripPdfSuffix suggested_filename)
  match parts.reverse with
  | [] => (none, none)
  | [_] => (none, none)
  | last :: prev :: rest =>
      if pyIsDigit last ∧ last.length = 4 then
        if rest.isEmpty then
          (none, some (pyTitle (List.intercalate " ".data [prev])))
        else
          (some prev, some (pyTitle (List.intercalate " ".data rest.reverse)))
      else
        (some last, some (pyTitle (List.intercalate " ".data (prev :: rest).reverse)))

/-- The claim-C5 reference parsing amended to what the source actually does:
(1) every occurrence of `".pdf"` is removed, not only a trailing suffix;
(2) a title is produced only when an author was extracted, that author is
non-empty, and more than 2 parts exist; (3) when a title is produced, two
trailing parts are excluded whenever the last part is all digits of any
length (not only a 4-digit year), one otherwise. -/
def parsePartsAmendedRef (parts : List Str) : Option Str × Option Str :=
  match parts.reverse with
  | [] => (none, none)
  | [_] => (none, none)
  | last :: prev :: rest =>
      let author : Option Str :=
        if pyIsDigit last ∧ last.length = 4 then
          (if rest.isEmpty then none else some prev)
        else some last
      let title : Option Str :=
        match author with
        | some a =>
            if a = [] ∨ rest.isEmpty then none
            else
              let titleParts := if pyIsDigit last then rest.reverse else (prev :: rest).reverse
              some (pyTitle (List.intercalate " ".data titleParts))
        | none => none
      (author, title)

/-- Amended reference parsing on a raw suggested filename. -/
def amendedRefParse (suggested_filename : Str) : Option Str × Option Str :=
  parsePartsAmendedRef (pySplitChar '-' (pyReplaceAll ".pdf".data [] suggested_filename))

/-- Reference variant loop per the claim C3 / spec section 4.1 wording: each
dictionary-key spelling is tried in order and a spelling whose lookup raises
is merely skipped ("never an exception surfaces from a single malformed
dictionary entry"); a falsy value also moves on to the next spelling. -/
def specTryVariants (m : MetaObj) : List Str → Option Str
  | [] => none
  | v :: vs =>
      match m.containsF v with
      | .ok true =>
          match m.getitemF v with
          | .ok value =>
              if value ≠ [] then some (pyStrip value) else specTryVariants m vs
          | .error _ => specTryVariants m vs
      | .ok false => specTryVariants m vs
      | .error _ => specTryVariants m vs

/-- Reference field extraction per the claim C3 wording: try the
structured-property accessor; if it is unavailable, yields a falsy value, or
raises, fall back to the dictionary-key spellings; a field no strategy
resolves is `none`. -/
def specGetField (m : MetaObj) (key : Str) : Option Str :=
  if m.hasattrF key then
    match m.getattrF key with
    | .ok value =>
        if value ≠ [] then some (pyStrip value)
        else specTryVariants m (keyVariants key)
    | .error _ => specTryVariants m (keyVariants key)
  else specTryVariants m (keyVariants key)

/-- Reference `extract_text` result per the claim C8 wording: for an
encrypted document `("", 0)`; otherwise the non-blank page texts of the first
`min(total_pages, max_pages)` pages joined by a blank-line separator, skipping
pages whose extracted text is empty or whitespace-only, with
`pages_read = min(total_pages, max_pages)`. -/
def specExtractText (doc : PdfDocument) (max_pages : Nat) : Str × Nat :=
  if doc.is_encrypted then ([], 0)
  else
    let n := min doc.pages.length max_pages
    let pageStrings := (doc.pages.take n).map (fun p => p.getD [])
    (List.intercalate "\n\n".data (pageStrings.filter (fun t => !(pyStrip t).isEmpty)), n)

/-- The lowercase-hash keyword form claimed by C7 / spec section 8:
`^#[a-z0-9]+$`. -/
def matchesHashForm : Str → Bool
  | '#' :: rest =>
      !rest.isEmpty && rest.all (fun c => (('a' ≤ c) && (c ≤ 'z')) || (('0' ≤ c) && (c ≤ '9')))
  | _ => false

/-- The prompt-size truncation of `analyze_content` (ai_analyzer.py:89-92). -/
def truncateForPrompt (text : Str) : Str :=
  if 8000 < text.length then text.take 8000 ++ "\n\n[Text truncated...]".data else text


/-!
Helper lemmas about the string model.
-/

theorem toNat_ofNat_small (n : Nat) (h : n < 0xd800) : (Char.ofNat n).toNat = n := by
  unfold Char.ofNat
  rw [dif_pos (Or.inl h)]
  simp [Char.ofNatAux, Char.toNat, UInt32.toNat, BitVec.toNat_ofNatLt]

theorem pyLowerChar_idem (c : Char) : pyLowerChar (pyLowerChar c) = pyLowerChar c := by
  unfold pyLowerChar
  split
  · rename_i h
    have h2 : (Char.ofNat (c.toNat + 32)).toNat = c.toNat + 32 :=
      toNat_ofNat_small _ (by omega)
    rw [if_neg]
    omega
  · rfl

theorem pyLowerChar_not_upper (c : Char) :
    ¬ (65 ≤ (pyLowerChar c).toNat ∧ (pyLowerChar c).toNat ≤ 90) := by
  unfold pyLowerChar
  split
  · rename_i h
    have h2 : (Char.ofNat (c.toNat + 32)).toNat = c.toNat + 32 :=
      toNat_ofNat_small _ (by omega)
    omega
  · rename_i h
    exact h

theorem pyLower_idem (s : Str) : pyLower (pyLower s) = pyLower s := by
  unfold pyLower
  rw [List.map_map]
  exact List.map_congr_left (fun a _ => pyLowerChar_idem a)

theorem strHasPre_append_self (p t : Str) : strHasPre p (p ++ t) = true := by
  induction p with
  | nil => rfl
  | cons c cs ih => simp [strHasPre, ih]

theorem endsWithStr_append (p l : Str) : endsWithStr p (l ++ p) = true := by
  unfold endsWithStr
  rw [List.reverse_append]
  exact strHasPre_append_self _ _

theorem ensureHash_cons (kw : Str) : ∃ t, ensureHash kw = '#' :: t := by
  unfold ensureHash
  match kw with
  | [] => exact ⟨[], rfl⟩
  | c :: cs =>
      by_cases h : c = '#'
      · subst h
        simp [strHasPre]
      · simp [strHasPre, h, Ne.symm h]

theorem pySplitChar_of_forall_ne (sep : Char) (s : Str) (h : ∀ a ∈ s, a ≠ sep) :
    pySplitChar sep s = [s] := by
  induction s with
  | nil => rfl
  | cons c cs ih =>
      have hc : c ≠ sep := h c (by simp)
      have ihs : pySplitChar sep cs = [cs] := ih (fun a ha => h a (by simp [ha]))
      simp [pySplitChar, hc, ihs]

theorem lastSplitPart_of_forall_ne (sep : Char) (s : Str) (h : ∀ a ∈ s, a ≠ sep) :
    lastSplitPart sep s = s := by
  unfold lastSplitPart
  rw [pySplitChar_of_forall_ne sep s h]
  rfl

theorem pyReplaceAllFuel_single_id (c : Char) (r : Str) :
    ∀ (s : Str) (fuel : Nat), s.length ≤ fuel → (∀ a ∈ s, a ≠ c) →
      pyReplaceAllFuel [c] r fuel s = s := by
  intro s
  induction s with
  | nil =>
      intro fuel _ _
      cases fuel with
      | zero => rfl
      | succ f => simp [pyReplaceAllFuel, strHasPre]
  | cons x xs ih =>
      intro fuel hlen hmem
      cases fuel with
      | zero => simp at hlen
      | succ f =>
          have hx : x ≠ c := hmem x (by simp)
          have hpre : strHasPre [c] (x :: xs) = false := by
            simp [strHasPre, Ne.symm hx]
          have ihs := ih f (by simpa using hlen) (fun a ha => hmem a (by simp [ha]))
          simp [pyReplaceAllFuel, hpre, ihs]

theorem pyReplaceAll_single_id (c : Char) (r : Str) (s : Str) (h : ∀ a ∈ s, a ≠ c) :
    pyReplaceAll [c] r s = s :=
  pyReplaceAllFuel_single_id c r s s.length (Nat.le_refl _) h

theorem collapseLoop_id (fuel : Nat) (s : Str) (h : pyInStr "--".data s = false) :
    collapseLoop fuel s = s := by
  cases fuel with
  | zero => rfl
  | succ f => simp [collapseLoop, h]

theorem mem_pyRstrip (c : Char) (s : Str) (a : Char) (h : a ∈ pyRstrip c s) : a ∈ s := by
  unfold pyRstrip at h
  rw [List.mem_reverse] at h
  have := (List.dropWhile_sublist (l := s.reverse) (fun x => x == c)).subset h
  rwa [List.mem_reverse] at this

theorem pageTexts_eq (n : Nat) : ∀ (ps : List (Option Str)),
    pageTexts ps n =
      ((ps.take n).map (fun p => p.getD [])).filter (fun t => !(pyStrip t).isEmpty) := by
  induction n with
  | zero => intro ps; simp [pageTexts]
  | succ n ih =>
      intro ps
      cases ps with
      | nil => simp [pageTexts]
      | cons p ps' =>
          simp only [pageTexts, List.take_succ_cons, List.map_cons, List.filter_cons, ih,
            List.isEmpty_iff, ne_eq]
          by_cases h : pyStrip (p.getD []) = [] <;> simp [h]

/-- Claim C8: for every encrypted document `extract_text` returns `("", 0)`;
for every non-encrypted document it returns the non-blank page texts of the
first `min(total_pages, max_pages)` pages joined by a blank-line separator,
skipping blank pages, with `pages_read = min(total_pages, max_pages)` —
stated as equality with the spec-side reference `specExtractText`. -/
theorem c8_extract_text_spec (doc : PdfDocument) (max_pages : Nat) :
    extract_text doc max_pages = specExtractText doc max_pages := by
  unfold extract_text specExtractText
  by_cases h : doc.is_encrypted
  · simp [h]
  · simp [h, pageTexts_eq]

theorem batch_foldl_eq
    (ee : Str → Except Str (EmbeddedMetadata × Nat × List Str))
    (et : Str → Nat → Except Str (Str × Nat))
    (inv : ExtractionConfig → List (Str × Str) → Except Str (Option AIMetadata))
    (cfg : ExtractionConfig) (av : Bool) :
    ∀ (files : List Str) (acc : List MetadataResult × List (Str × Str)),
      files.foldl (batchStep ee et inv cfg av) acc =
        (acc.1 ++ files.filterMap (fun f => (processFile ee et inv cfg av f).toOption),
         acc.2 ++ files.filterMap (fun f =>
            match processFile ee et inv cfg av f with
            | .ok _ => none
            | .error e => some (f, e))) := by
  intro files
  induction files with
  | nil => intro acc; simp
  | cons f fs ih =>
      intro acc
      simp only [List.foldl_cons, List.filterMap_cons]
      rw [ih]
      unfold batchStep
      cases h : processFile ee et inv cfg av f <;>
        simp [h, Except.toOption]

theorem batch_lengths
    (g : Str → Except Str MetadataResult) :
    ∀ files : List Str,
      (files.filterMap (fun f => (g f).toOption)).length +
      (files.filterMap (fun f =>
          match g f with
          | .ok _ => none
          | .error e => some (f, e))).length = files.length := by
  intro files
  induction files with
  | nil => rfl
  | cons f fs ih =>
      simp only [List.filterMap_cons, List.length_cons]
      cases h : g f <;> simp [h, Except.toOption] at ih ⊢ <;> omega

/-- Claim C2: in batch processing, any exception in a single file's pipeline
is caught at the file boundary and recorded as a `(file, error)` pair while
processing continues with the remaining files — `results` and `errors` are
exactly the per-file successes and the per-file caught failures, in input
order — and the resulting `BatchResult` satisfies `total = len(files)`,
`successful = len(results)`, `failed = len(errors)`, and
`successful + failed = total`. -/
theorem c2_batch_invariants
    (ee : Str → Except Str (EmbeddedMetadata × Nat × List Str))
    (et : Str → Nat → Except Str (Str × Nat))
    (inv : ExtractionConfig → List (Str × Str) → Except Str (Option AIMetadata))
    (run₁ : Except Unit Int) (run₂ : Except Unit (Int × Str))
    (directory : Str) (pdf_files : List Str) (cfg : ExtractionConfig) :
    (process_directory ee et inv run₁ run₂ directory pdf_files cfg).results =
      pdf_files.filterMap (fun f => (processFile ee et inv cfg
        (if !cfg.skip_ai then is_ollama_available run₁ run₂ cfg.model_name else false)
        f).toOption) ∧
    (process_directory ee et inv run₁ run₂ directory pdf_files cfg).errors =
      pdf_files.filterMap (fun f =>
        match processFile ee et inv cfg
          (if !cfg.skip_ai then is_ollama_available run₁ run₂ cfg.model_name else false) f with
        | .ok _ => none
        | .error e => some (f, e)) ∧
    (process_directory ee et inv run₁ run₂ directory pdf_files cfg).total_files =
      pdf_files.length ∧
    (process_directory ee et inv run₁ run₂ directory pdf_files cfg).successful =
      (process_directory ee et inv run₁ run₂ directory pdf_files cfg).results.length ∧
    (process_directory ee et inv run₁ run₂ directory pdf_files cfg).failed =
      (process_directory ee et inv run₁ run₂ directory pdf_files cfg).errors.length ∧
    (process_directory ee et inv run₁ run₂ directory pdf_files cfg).successful +
      (process_directory ee et inv run₁ run₂ directory pdf_files cfg).failed =
      (process_directory ee et inv run₁ run₂ directory pdf_files cfg).total_files := by
  simp only [process_directory]
  rw [batch_foldl_eq]
  simp only [List.nil_append]
  refine ⟨by trivial, by trivial, by trivial, by trivial, by trivial, ?_⟩
  exact batch_lengths _ pdf_files

/-- Claim C10: `is_model_available` returns `true` whenever the base model
name (the part before the first `:`) occurs as a substring of the inventory
stdout of a successful probe; in particular `"llama"` is reported available
when only `"codellama:7b"` is installed, and `is_ollama_available` then also
returns `true` for this not-installed model. -/
theorem c10_substring_availability :
    (∀ (stdout model_name : Str),
        pyInStr ((pySplitChar ':' model_name).headD []) stdout = true →
        is_model_available (.ok (0, stdout)) model_name = true) ∧
    is_model_available (.ok (0, "codellama:7b".data)) "llama".data = true ∧
    ("llama".data ∉ ["codellama:7b".data] ∧ "llama".data ∉ ["codellama".data]) ∧
    is_ollama_available (.ok 0) (.ok (0, "codellama:7b".data)) "llama".data = true := by
  refine ⟨?_, by decide, by decide, by decide⟩
  intro stdout model_name h
  simpa [is_model_available] using h

/-- Claim C10 witness: the universally quantified part applied at the concrete
inventory output `"codellama:7b"` and model `"llama"`. -/
theorem c10_witness :
    pyInStr ((pySplitChar ':' "llama".data).headD []) "codellama:7b".data = true ∧
    is_model_available (.ok (0, "codellama:7b".data)) "llama".data = true :=
  ⟨by decide, c10_substring_availability.1 "codellama:7b".data "llama".data (by decide)⟩

/-- Claim C1 counterexample: `merge_ai_into_embedded` does overwrite a present
(but empty-string) embedded title.  Here `embedded.title = some ""` is not
`none`, yet the merge replaces it with the title parsed from the AI's
suggested filename, because the source's Python `or` treats the empty string
as missing. -/
theorem c1_counterexample :
    (EmbeddedMetadata.mk (some []) none none none none none none).title ≠ none ∧
    (merge_ai_into_embedded
        (EmbeddedMetadata.mk (some []) none none none none none none)
        (AIMetadata.mk [] [] [] "bayesian-data-analysis-gelman-2013.pdf".data)).title ≠
      (EmbeddedMetadata.mk (some []) none none none none none none).title := by
  constructor
  · decide
  · decide

/-- Claim C1 (amended): merge never overwrites a present *non-empty* embedded
value — whenever `embedded.title` is a non-empty string, the merged title
equals it, and likewise for author and subject; fields that are `none` (or
empty) are substituted with the AI-derived values (subject from
`ai.category`, title and author parsed from `suggested_filename`). -/
theorem c1_merge_preserves_nonempty_fields (e : EmbeddedMetadata) (ai : AIMetadata) :
    (∀ t, e.title = some t → t ≠ [] → (merge_ai_into_embedded e ai).title = some t) ∧
    (∀ a, e.author = some a → a ≠ [] → (merge_ai_into_embedded e ai).author = some a) ∧
    (∀ s, e.subject = some s → s ≠ [] → (merge_ai_into_embedded e ai).subject = some s) ∧
    (e.title = none →
      (merge_ai_into_embedded e ai).title = (mergeParse ai.suggested_filename).2) ∧
    (e.author = none →
      (merge_ai_into_embedded e ai).author = (mergeParse ai.suggested_filename).1) ∧
    (e.subject = none → (merge_ai_into_embedded e ai).subject = some ai.category) := by
  refine ⟨?_, ?_, ?_, ?_, ?_, ?_⟩ <;>
    first
      | (intro v hv hne; simp [merge_ai_into_embedded, pyOrOpt, hv, hne])
      | (intro hv; simp [merge_ai_into_embedded, pyOrOpt, hv])

/-- Claim C1 witness: the amended theorem applied at a record with a
non-empty title and a `none` subject. -/
theorem c1_witness :
    (merge_ai_into_embedded
        (EmbeddedMetadata.mk (some "T".data) none none none none none none)
        (AIMetadata.mk [] [] "stats".data "a-b-c".data)).title = some "T".data ∧
    (merge_ai_into_embedded
        (EmbeddedMetadata.mk (some "T".data) none none none none none none)
        (AIMetadata.mk [] [] "stats".data "a-b-c".data)).subject = some "stats".data :=
  ⟨(c1_merge_preserves_nonempty_fields _ _).1 "T".data rfl (by decide),
   (c1_merge_preserves_nonempty_fields _ _).2.2.2.2.2 rfl⟩

/-- Claim C9: a metadata value that is truthy but strips to nothing (e.g. a
whitespace-only string) is stored by field extraction as the *empty string*,
not `none`; and `merge_ai_into_embedded` then treats such an empty-string
field as missing, substituting the AI-derived value (parsed title/author,
`ai.category` for subject). -/
theorem c9_blank_field_stored_empty_and_merged :
    (∀ (m : MetaObj) (key v : Str),
        m.hasattrF key = true → m.getattrF key = .ok v → v ≠ [] → pyStrip v = [] →
        get_metadata_field m key = some []) ∧
    (∀ (e : EmbeddedMetadata) (ai : AIMetadata),
        e.title = some [] →
        (merge_ai_into_embedded e ai).title = (mergeParse ai.suggested_filename).2) ∧
    (∀ (e : EmbeddedMetadata) (ai : AIMetadata),
        e.author = some [] →
        (merge_ai_into_embedded e ai).author = (mergeParse ai.suggested_filename).1) ∧
    (∀ (e : EmbeddedMetadata) (ai : AIMetadata),
        e.subject = some [] → (merge_ai_into_embedded e ai).subject = some ai.category) := by
  refine ⟨?_, ?_, ?_, ?_⟩
  · intro m key v hattr hget hne hstrip
    simp [get_metadata_field, getFieldBody, hattr, hget, hne, hstrip, bind, Except.bind, pure,
      Except.pure]
  · intro e ai hv; simp [merge_ai_into_embedded, pyOrOpt, hv]
  · intro e ai hv; simp [merge_ai_into_embedded, pyOrOpt, hv]
  · intro e ai hv; simp [merge_ai_into_embedded, pyOrOpt, hv]

/-- Claim C9 witness: a concrete metadata object whose `title` attribute is
the one-space string, and a concrete record/AI pair with an empty-string
author. -/
theorem c9_witness :
    get_metadata_field
      (MetaObj.mk (fun k => k == "title".data) (fun _ => .ok " ".data)
        (fun _ => .ok false) (fun _ => .ok [])) "title".data = some [] ∧
    (merge_ai_into_embedded
        (EmbeddedMetadata.mk none (some []) none none none none none)
        (AIMetadata.mk [] [] [] "deep-learning-goodfellow-2016".data)).author =
      (mergeParse "deep-learning-goodfellow-2016".data).1 :=
  ⟨c9_blank_field_stored_empty_and_merged.1 _ "title".data " ".data (by decide) rfl
      (by decide) (by decide),
   c9_blank_field_stored_empty_and_merged.2.2.1 _ _ rfl⟩

theorem norm_kw_fixed (kw : Str) :
    pyLower (ensureHash (pyLower (ensureHash kw))) = pyLower (ensureHash kw) := by
  obtain ⟨t, ht⟩ := ensureHash_cons kw
  rw [ht]
  have hlow : pyLowerChar '#' = '#' := by decide
  have h1 : pyLower ('#' :: t) = '#' :: pyLower t := by simp [pyLower, hlow]
  rw [h1]
  have h2 : ensureHash ('#' :: pyLower t) = '#' :: pyLower t := by
    simp [ensureHash, strHasPre]
  rw [h2, ← h1, pyLower_idem]

/-- Claim C7 counterexample: keyword normalization does not force the
`^#[a-z0-9]+$` form — the keyword `"a_b"` normalizes to `"#a_b"`, which
contains an underscore and so fails the claimed character-class. -/
theorem c7_counterexample :
    ¬ ∀ kw ∈ normalizeKeywords ["a_b".data], matchesHashForm kw = true := by
  decide

/-- Claim C7 (amended): keyword normalization (prefix `#` to every keyword
lacking it, then lowercase every keyword) is idempotent, and every output
keyword starts with `#` and contains no uppercase ASCII letter; the body of a
keyword is, however, *not* restricted to `[a-z0-9]`. -/
theorem c7_keyword_normalization_amended (kws : List Str) :
    normalizeKeywords (normalizeKeywords kws) = normalizeKeywords kws ∧
    (∀ kw ∈ normalizeKeywords kws, strHasPre "#".data kw = true) ∧
    (∀ kw ∈ normalizeKeywords kws, ∀ c ∈ kw, ¬ (65 ≤ c.toNat ∧ c.toNat ≤ 90)) := by
  refine ⟨?_, ?_, ?_⟩
  · simp only [normalizeKeywords, List.map_map]
    apply List.map_congr_left
    intro a _
    simpa using norm_kw_fixed a
  · intro kw hkw
    simp only [normalizeKeywords, List.map_map, List.mem_map] at hkw
    obtain ⟨a, _, rfl⟩ := hkw
    obtain ⟨t, ht⟩ := ensureHash_cons a
    simp [ht, pyLower, strHasPre, show pyLowerChar '#' = '#' from by decide]
  · intro kw hkw c hc
    simp only [normalizeKeywords, List.map_map, List.mem_map] at hkw
    obtain ⟨a, _, rfl⟩ := hkw
    simp only [Function.comp_apply, pyLower, List.mem_map] at hc
    obtain ⟨d, _, rfl⟩ := hc
    exact pyLowerChar_not_upper d

/-- Claim C7 witness: the amended theorem applied to the concrete keyword
list `["Stats"]`, whose normalization is `["#stats"]`. -/
theorem c7_witness :
    normalizeKeywords (normalizeKeywords ["Stats".data]) = normalizeKeywords ["Stats".data] ∧
    strHasPre "#".data "#stats".data = true :=
  ⟨(c7_keyword_normalization_amended ["Stats".data]).1,
   (c7_keyword_normalization_amended ["Stats".data]).2.1 "#stats".data (by decide)⟩

theorem validChars_lower : ∀ c ∈ validChars, pyLowerChar c = c := by decide

theorem clean_charset (s : Str) : ∀ c ∈ clean_filename s, c ∈ validChars := by
  intro c hc
  simp only [clean_filename] at hc
  split at hc
  · exact List.elem_iff.mp (List.mem_filter.mp hc).2
  · rcases List.mem_append.mp hc with h | h
    · have hm := mem_pyRstrip '.' _ c h
      exact List.elem_iff.mp (List.mem_filter.mp hm).2
    · exact (by decide : ∀ a ∈ (".pdf".data : Str), a ∈ validChars) c h

theorem clean_ends (s : Str) : endsWithStr ".pdf".data (clean_filename s) = true := by
  simp only [clean_filename]
  split
  · assumption
  · exact endsWithStr_append _ _

theorem clean_idem (s : Str) (h : pyInStr "--".data (clean_filename s) = false) :
    clean_filename (clean_filename s) = clean_filename s := by
  have hvalid := clean_charset s
  have hends := clean_ends s
  have hnot : ∀ x : Char, x ∉ validChars → ∀ a ∈ clean_filename s, a ≠ x := by
    intro x hx a ha heq
    exact hx (heq ▸ hvalid a ha)
  have h1 : lastSplitPart '/' (clean_filename s) = clean_filename s :=
    lastSplitPart_of_forall_ne _ _ (hnot '/' (by decide))
  have h2 : lastSplitPart '\\' (clean_filename s) = clean_filename s :=
    lastSplitPart_of_forall_ne _ _ (hnot '\\' (by decide))
  have h3 : pyReplaceAll " ".data "-".data (clean_filename s) = clean_filename s :=
    pyReplaceAll_single_id ' ' _ _ (hnot ' ' (by decide))
  have h4 : pyReplaceAll "_".data "-".data (clean_filename s) = clean_filename s :=
    pyReplaceAll_single_id '_' _ _ (hnot '_' (by decide))
  have h5 : pyLower (clean_filename s) = clean_filename s := by
    unfold pyLower
    rw [List.map_congr_left (f := pyLowerChar) (g := id)
      (fun a ha => validChars_lower a (hvalid a ha)), List.map_id]
  have h6 : collapseLoop (clean_filename s).length (clean_filename s) = clean_filename s :=
    collapseLoop_id _ _ h
  have h7 : (clean_filename s).filter (fun c => validChars.contains c) = clean_filename s :=
    List.filter_eq_self.mpr (fun a ha => List.elem_iff.mpr (hvalid a ha))
  conv_lhs => rw [clean_filename]
  rw [h1, h2, h3, h4, h5, h6, h7, if_pos hends]

/-- Claim C6 counterexample: filename cleaning is not idempotent — dropping
the invalid character of `"a-!-b.pdf"` creates a fresh `"--"` run (the run
collapse happens before the character filter), so a second application
changes the result again. -/
theorem c6_counterexample :
    clean_filename (clean_filename "a-!-b.pdf".data) ≠ clean_filename "a-!-b.pdf".data := by
  decide

/-- Claim C6 (amended): the output of filename cleaning always ends in
`".pdf"` and consists only of characters from `[a-z0-9\-.\[\]()]`; cleaning
is idempotent on every input whose cleaned output contains no `"--"` run
(character removal can create a new hyphen run after the collapse step, and
only on such inputs does a second pass differ). -/
theorem c6_clean_filename_amended (s : Str) :
    endsWithStr ".pdf".data (clean_filename s) = true ∧
    (∀ c ∈ clean_filename s, c ∈ validChars) ∧
    (pyInStr "--".data (clean_filename s) = false →
      clean_filename (clean_filename s) = clean_filename s) :=
  ⟨clean_ends s, clean_charset s, clean_idem s⟩

/-- Claim C6 witness: the amended theorem applied to `"My File.pdf"`,
whose cleaned form `"my-file.pdf"` has no `"--"` run. -/
theorem c6_witness :
    pyInStr "--".data (clean_filename "My File.pdf".data) = false ∧
    clean_filename (clean_filename "My File.pdf".data) = clean_filename "My File.pdf".data ∧
    '/' ∉ clean_filename "My File.pdf".data :=
  ⟨by decide,
   (c6_clean_filename_amended "My File.pdf".data).2.2 (by decide),
   fun hmem => by
     have := (c6_clean_filename_amended "My File.pdf".data).2.1 '/' hmem
     exact absurd this (by decide)⟩

theorem parseParts_eq (parts : List Str) : parsePartsCode parts = parsePartsAmendedRef parts := by
  rcases h : parts.reverse with _ | ⟨last, _ | ⟨prev, rest⟩⟩
  · have hp : parts = [] := List.reverse_eq_nil_iff.mp h
    subst hp; rfl
  · have hp : parts = [last] := by
      have h2 := congrArg List.reverse h
      simpa using h2
    subst hp; rfl
  · have hlen : parts.length = rest.length + 2 := by
      rw [← List.length_reverse parts, h]; simp
    simp only [parsePartsCode, parsePartsAmendedRef, h, hlen, List.headD_cons,
      List.drop_succ_cons, List.drop_zero]
    by_cases hd : pyIsDigit last = true ∧ last.length = 4
    · by_cases hr : rest = []
      · subst hr; simp [hd]
      · have hr1 : 0 < rest.length := List.length_pos.mpr hr
        have hr2 : 1 ≤ rest.length := hr1
        by_cases hp' : prev = [] <;>
          simp [hd, hr, hp', hr1, hr2, List.isEmpty_iff]
    · by_cases hl : last = []
      · have hdig : pyIsDigit last = false := by
          subst hl; decide
        simp [hd, hl, hdig]
      · by_cases hr : rest = []
        · subst hr
          simp [hd, hl, List.isEmpty_iff]
        · have hr1 : 0 < rest.length := List.length_pos.mpr hr
          have hr2 : 1 ≤ rest.length := hr1
          simp [hd, hl, hr, hr1, hr2, List.isEmpty_iff]

/-- Claim C5 counterexample: the source's parsing differs from the spec's
reference definition.  On `"alpha-beta-12.pdf"` the reference yields author
`"12"` and title `"Alpha Beta"` (the last part is not a 4-digit year, so only
one trailing part is consumed), but the code drops *two* trailing parts
whenever the last part is all digits of any length, yielding title
`"Alpha"`. -/
theorem c5_counterexample :
    mergeParse "alpha-beta-12.pdf".data ≠ specRefParse "alpha-beta-12.pdf".data := by
  decide

/-- Claim C5 (amended): the reconciler's filename parsing equals the
reference definition amended in three ways — every occurrence of `".pdf"` is
removed rather than only a trailing suffix; a title is produced only when a
non-empty author was extracted and more than 2 parts exist; and when a title
is produced, two trailing parts are excluded whenever the last part is all
digits of any length, one otherwise.  The claim's two examples hold as
stated. -/
theorem c5_parse_amended :
    (∀ fn : Str, mergeParse fn = amendedRefParse fn) ∧
    mergeParse "bayesian-data-analysis-gelman-2013".data =
      (some "gelman".data, some "Bayesian Data Analysis".data) ∧
    mergeParse "intro-to-statistics-unknown-unknown".data =
      (some "unknown".data, some "Intro To Statistics Unknown".data) := by
  refine ⟨?_, by decide, by decide⟩
  intro fn
  unfold mergeParse amendedRefParse
  exact parseParts_eq _

/-- Claim C3 counterexample: when the structured-property accessor *raises*,
the code does not fall back to the dictionary-key spellings — the catch-all
returns `none` immediately.  On a metadata object whose `title` attribute
raises but whose `"/Title"` dictionary entry holds `"T"`, the claimed
strategy yields `some "T"` while the code yields `none`. -/
theorem c3_counterexample :
    specGetField
        (MetaObj.mk (fun k => k == "title".data) (fun _ => .error "boom".data)
          (fun v => .ok (v == "/Title".data))
          (fun v => if v == "/Title".data then .ok "T".data else .ok []))
        "title".data = some "T".data ∧
    get_metadata_field
        (MetaObj.mk (fun k => k == "title".data) (fun _ => .error "boom".data)
          (fun v => .ok (v == "/Title".data))
          (fun v => if v == "/Title".data then .ok "T".data else .ok []))
        "title".data = none := by
  constructor
  · decide
  · decide

/-- Claim C3 (amended): `get_metadata_field` never lets an exception surface —
every raising path yields `none` — and resolves a field by first trying the
attribute accessor (a truthy value wins, stripped), falling back to the
dictionary-key spellings when the accessor is *unavailable or its value is
falsy*; when any step raises, however, the field becomes `none` immediately,
without trying the remaining spellings. -/
theorem c3_field_resolution (m : MetaObj) (key : Str) :
    (∀ e, getFieldBody m key = .error e → get_metadata_field m key = none) ∧
    (∀ v, m.hasattrF key = true → m.getattrF key = .ok v → v ≠ [] →
        get_metadata_field m key = some (pyStrip v)) ∧
    (∀ v, m.hasattrF key = true → m.getattrF key = .ok v → v = [] →
        getFieldBody m key = tryVariants m (keyVariants key)) ∧
    (m.hasattrF key = false → getFieldBody m key = tryVariants m (keyVariants key)) ∧
    (∀ e, m.hasattrF key = true → m.getattrF key = .error e →
        get_metadata_field m key = none) := by
  refine ⟨?_, ?_, ?_, ?_, ?_⟩
  · intro e he
    simp [get_metadata_field, he]
  · intro v hattr hget hne
    simp [get_metadata_field, getFieldBody, hattr, hget, hne, bind, Except.bind, pure,
      Except.pure]
  · intro v hattr hget hv
    simp [getFieldBody, hattr, hget, hv, bind, Except.bind, pure, Except.pure]
  · intro hattr
    simp [getFieldBody, hattr]
  · intro e hattr hget
    simp [get_metadata_field, getFieldBody, hattr, hget, bind, Except.bind]

/-- Claim C3 witness: the amended theorem applied to a concrete metadata
object whose `title` attribute holds `" x "`, and to one whose accessor
raises. -/
theorem c3_witness :
    get_metadata_field
        (MetaObj.mk (fun _ => true) (fun _ => .ok " x ".data)
          (fun _ => .ok false) (fun _ => .ok [])) "title".data =
      some (pyStrip " x ".data) ∧
    get_metadata_field
        (MetaObj.mk (fun _ => true) (fun _ => .error "eek".data)
          (fun _ => .ok false) (fun _ => .ok [])) "title".data = none :=
  ⟨(c3_field_resolution
      (MetaObj.mk (fun _ => true) (fun _ => .ok " x ".data)
        (fun _ => .ok false) (fun _ => .ok [])) "title".data).2.1
      " x ".data rfl rfl (by decide),
   (c3_field_resolution
      (MetaObj.mk (fun _ => true) (fun _ => .error "eek".data)
        (fun _ => .ok false) (fun _ => .ok [])) "title".data).2.2.2.2
      "eek".data rfl rfl⟩

/-- Claim C4 counterexample: a completed model call whose structured output is
not an `AIMetadata` instance makes `analyze_content` return `none` *without*
recording any diagnostic, so "returns none and records a diagnostic" fails as
a universal statement. -/
theorem c4_counterexample :
    ¬ ∀ (invoke : ExtractionConfig → List (Str × Str) → Except Str (Option AIMetadata))
        (text : Str) (cfg : ExtractionConfig),
        (analyze_content invoke text cfg).1 = none →
        (analyze_content invoke text cfg).2 ≠ [] := by
  intro hclaim
  exact hclaim (fun _ _ => .ok none) "x".data
    (ExtractionConfig.mk 10 "gemma3:4b".data false 0 120) rfl rfl

/-- Claim C4 (amended): `analyze_content` never raises — every outcome of the
model call maps to a value: a raised backend error/timeout yields `none` plus
a stderr diagnostic; a completed call with non-conforming output yields
`none` silently (no diagnostic); and a conforming result is returned with
keywords normalized and the suggested filename `.pdf`-suffixed and cleaned. -/
theorem c4_analyze_never_raises
    (invoke : ExtractionConfig → List (Str × Str) → Except Str (Option AIMetadata))
    (text : Str) (cfg : ExtractionConfig) :
    (∀ e, invoke cfg (buildMessages (truncateForPrompt text)) = .error e →
        analyze_content invoke text cfg = (none, ["AI analysis error: ".data ++ e])) ∧
    (invoke cfg (buildMessages (truncateForPrompt text)) = .ok none →
        analyze_content invoke text cfg = (none, [])) ∧
    (∀ r, invoke cfg (buildMessages (truncateForPrompt text)) = .ok (some r) →
        analyze_content invoke text cfg =
          (some { r with
              keywords := normalizeKeywords r.keywords,
              suggested_filename := clean_filename
                (if endsWithStr ".pdf".data r.suggested_filename then r.suggested_filename
                 else r.suggested_filename ++ ".pdf".data) }, [])) := by
  refine ⟨?_, ?_, ?_⟩
  · intro e he
    simp [analyze_content, truncateForPrompt] at he ⊢
    simp [he]
  · intro he
    simp [analyze_content, truncateForPrompt] at he ⊢
    simp [he]
  · intro r hr
    simp [analyze_content, truncateForPrompt] at hr ⊢
    simp [hr]

/-- Claim C4 witness: the amended theorem's raising branch applied to a
backend that always times out, and its non-conforming branch applied to a
backend that returns a non-`AIMetadata` result. -/
theorem c4_witness :
    analyze_content (fun _ _ => .error "timeout".data) "doc".data
        (ExtractionConfig.mk 10 "m".data false 0 120) =
      (none, ["AI analysis error: timeout".data]) ∧
    analyze_content (fun _ _ => .ok none) "doc".data
        (ExtractionConfig.mk 10 "m".data false 0 120) = (none, []) :=
  ⟨((c4_analyze_never_raises (fun _ _ => .error "timeout".data) "doc".data
      (ExtractionConfig.mk 10 "m".data false 0 120)).1 "timeout".data rfl).trans
      (by decide),
   (c4_analyze_never_raises (fun _ _ => .ok none) "doc".data
      (ExtractionConfig.mk 10 "m".data false 0 120)).2.1 rfl⟩
